import Mathlib

/-!
Verification of the smart-calculator core (the variant whose entry points are
`convert2Postfix`, `Expression.Evaluate`, `evaluateExpression`,
`handleAssignment` and `handleExpression`).

The Go code is embedded shallowly:
* Go `int` is 64-bit; `+`, `-`, `*` wrap around, modelled with `wrap`.
* Go `/` and `%` truncate toward zero (`Int.div` / `Int.mod`); dividing by
  zero is a runtime panic that kills the process, modelled as `Option.none`
  threaded through every function that can reach a division.
* Go slices used as stacks push at the slice's end; here the top of a stack
  is the head of a list.  The evaluator's value stack distinguishes the nil
  slice from an empty non-nil slice (the code tests `stack == nil`), so it is
  an `Option (List Int)` with `none` for the nil slice.
* `error` results are an inductive `Err` mirroring the three message
  constants `INVALID`, `UNKNOWN` and `EMPTY`.
* Strings are processed rune by rune; raw-term text is a `List Char`.
-/

namespace SmartCalc

/-- Two's-complement wraparound of Go's 64-bit `int` arithmetic. -/
def wrap (x : Int) : Int := (x + 2 ^ 63) % 2 ^ 64 - 2 ^ 63

/-- Go type `Value` (an `int`). -/
abbrev Value := Int

/-- Go type `Operator` (a `string`); operator text kept as a char list. -/
abbrev Operator := List Char

/-- Go type `Identifier` (a `string`). -/
abbrev Identifier := List Char

/-- The global `memory` map, passed explicitly; lookup is by first match. -/
abbrev Mem := List (Identifier × Value)

/-- Reading `memory[k]` (the `value, ok := memory[k]` form). -/
def memLookup : Mem → Identifier → Option Value
  | [], _ => none
  | (k, v) :: rest, key => if k = key then some v else memLookup rest key

/-- Writing `memory[k] = v`; observationally (through `memLookup`) this is the
Go map update. -/
def memInsert (m : Mem) (k : Identifier) (v : Value) : Mem := (k, v) :: m

/-- The smallest Go `int`. -/
def minInt : Int := -(2 ^ 63)

/-- The largest Go `int`. -/
def maxInt : Int := 2 ^ 63 - 1

/-- Numeric value of a digit string. -/
def natOfDigits (s : List Char) : Nat :=
  s.foldl (fun a c => a * 10 + (c.toNat - 48)) 0

/-- Go `strconv.Atoi`: optional sign, at least one digit, only digits, and the
value must fit a 64-bit `int` (out of range is an error). `none` is a non-nil
`err`. -/
def atoi (s : List Char) : Option Int :=
  let signDigits : Int × List Char :=
    match s with
    | '+' :: rest => (1, rest)
    | '-' :: rest => (-1, rest)
    | _ => (1, s)
  if signDigits.2 = [] ∨ ¬ signDigits.2.all Char.isDigit then none
  else
    let v : Int := signDigits.1 * natOfDigits signDigits.2
    if v < minInt ∨ maxInt < v then none else some v

/-- Go `unicode.In(char, unicode.Latin)`, modelled on its ASCII range (every
input considered in this development is ASCII, where the Latin script is
exactly the letters A-Z and a-z). -/
def isLatinChar (c : Char) : Bool :=
  ('A' ≤ c && c ≤ 'Z') || ('a' ≤ c && c ≤ 'z')

/-- Go `isIdentifier`: every rune is Latin (vacuously true of ""). -/
def isIdentifierText (s : List Char) : Bool := s.all isLatinChar

/-- The loop of Go `plusMinus`: `negative` toggles on `-`, `+` is skipped and
any other rune is an `Invalid` error (`none`). -/
def plusMinusAux : Bool → List Char → Option Bool
  | neg, [] => some neg
  | neg, c :: cs =>
    if c = '+' then plusMinusAux neg cs
    else if c = '-' then plusMinusAux (!neg) cs
    else none

/-- Go `plusMinus`: collapse a text of `+`/`-` runes to `"-"` when the number
of `-` runes is odd and to `"+"` otherwise. -/
def plusMinus (s : List Char) : Option (List Char) :=
  (plusMinusAux false s).map (fun negative => if negative then ['-'] else ['+'])

/-- The eight literal operator strings of Go `isOperator`. -/
def operatorSymbols : List (List Char) :=
  [['*'], ['/'], ['^'], ['%'], ['('], [')'], ['+'], ['-']]

/-- Go `isOperator`: one of the eight symbols, or a collapsible sign run. -/
def isOperatorText (s : List Char) : Option Operator :=
  if s ∈ operatorSymbols then some s
  else
    match plusMinus s with
    | some op => some op
    | none => none

/-- Go `Precedence` (an `int8`; the `switch` leaves parentheses at 0). -/
def Precedence (operator : Operator) : Int :=
  if operator = ['+'] ∨ operator = ['-'] then 1
  else if operator = ['*'] ∨ operator = ['/'] ∨ operator = ['%'] then 2
  else if operator = ['^'] then 3
  else 0

/-- Go struct `Term`; its zero value has value 0, a false flag and an empty
operator. -/
structure Term where
  value : Value := 0
  isOperator : Bool := false
  operator : Operator := []
  deriving Repr, DecidableEq

/-- The operator `Term` literal used for popped operators. -/
def opTerm (op : Operator) : Term := { operator := op, isOperator := true }

/-- Go struct `RawTerm` of this variant (with the `closed` flag). -/
structure RawTerm where
  isIdentifier : Bool := false
  isValue : Bool := false
  isOperator : Bool := false
  closed : Bool := false
  text : List Char := []
  deriving Repr, DecidableEq

/-- The three `errors.New` message constants. -/
inductive Err where
  | invalid
  | unknown
  | empty
  deriving Repr, DecidableEq

/-- `err.Error()`: the message string carried by each error. -/
def Err.message : Err → String
  | .invalid => "Invalid "
  | .unknown => "Unknown variable "
  | .empty => "empty expression"

/-- Go `validate`: resolve a closed `RawTerm` against the memory.  A raw term
with no flag set (never touched by `Extend`) falls through every branch and
yields the zero `Term` with a nil error. -/
def validate (mem : Mem) (term : RawTerm) : Except Err Term :=
  if term.isOperator then
    match isOperatorText term.text with
    | some operator => .ok (opTerm operator)
    | none => .error .invalid
  else if term.isValue then
    match atoi term.text with
    | some v => .ok { value := v }
    | none => .error .invalid
  else if term.isIdentifier then
    match memLookup mem term.text with
    | some v => .ok { value := v }
    | none =>
      if isIdentifierText term.text then .error .unknown else .error .invalid
  else .ok {}

/-- `Peek` on the operator stack (zero `Operator` is the empty string). -/
def oPeek : List Operator → Operator
  | [] => []
  | operator :: _ => operator

/-- The pop loop of `Update` on a `)`: pop and emit until a `(` is found and
discarded; `none` when the stack runs out first (the `Invalid` error). -/
def popUntilParen : List Operator → Option (List Term × List Operator)
  | [] => none
  | top :: rest =>
    if top = ['('] then some ([], rest)
    else
      match popUntilParen rest with
      | some (ts, s) => some (opTerm top :: ts, s)
      | none => none

/-- The final loop of `Update`: pop and emit while the top is neither `(` nor
of lower precedence, then push the incoming operator (also when the stack has
been emptied). -/
def popGE (operator : Operator) : List Operator → List Term × List Operator
  | [] => ([], [operator])
  | top :: rest =>
    if top = ['('] ∨ Precedence top < Precedence operator then
      ([], operator :: top :: rest)
    else
      let (ts, s) := popGE operator rest
      (opTerm top :: ts, s)

/-- Go `OperatorStack.Update`: returns the emitted operator terms (in pop
order) and the updated stack, or the `Invalid` error. -/
def Update (stack : List Operator) (operator : Operator) :
    Except Err (List Term × List Operator) :=
  if stack = [] ∨ operator = ['('] ∨ oPeek stack = ['('] then
    .ok ([], operator :: stack)
  else if operator = [')'] then
    match popUntilParen stack with
    | some (ts, s) => .ok (ts, s)
    | none => .error .invalid
  else if Precedence (oPeek stack) < Precedence operator then
    .ok ([], operator :: stack)
  else
    let (ts, s) := popGE operator stack
    .ok (ts, s)

/-- Go `Expression.Grow` of this variant: an operator term goes through
`Update` (emitted terms are appended to the expression); any other term is
appended directly. -/
def Grow (expression : List Term) (stack : List Operator) (term : Term) :
    Except Err (List Term × List Operator) :=
  if term.isOperator then
    match Update stack term.operator with
    | .ok (ts, s) => .ok (expression ++ ts, s)
    | .error e => .error e
  else .ok (expression ++ [term], stack)

/-- Go `strings.HasSuffix(text, "+") || strings.HasSuffix(text, "-")`. -/
def endsWithSign (s : List Char) : Bool :=
  match s.getLast? with
  | some c => c = '+' || c = '-'
  | none => false

/-- Go `RawTerm.Close`: decide whether the accumulating term is finished when
`char` arrives; when no case of the switch applies, `closed` is unchanged. -/
def closeRaw (term last : RawTerm) (char : Char) : RawTerm :=
  { term with
    closed :=
      if char = ' ' then true
      else if term.isValue then !(atoi [char]).isSome
      else if term.isOperator then
        if (atoi [char]).isSome && (term.text = ['+'] || term.text = ['-']) then
          last.isIdentifier || last.isValue
        else if endsWithSign term.text then !(char = '+' || char = '-')
        else true
      else if term.isIdentifier then !isLatinChar char
      else term.closed }

/-- Go `RawTerm.Extend` of this variant: a space is skipped before any text is
appended; a sign run followed by a digit reclassifies as a number; a fresh
term is classified by its first rune, any unclassifiable rune being the
`Invalid` error. -/
def extendRaw (term : RawTerm) (char : Char) : Except Err RawTerm :=
  if char = ' ' then .ok term
  else if term.isValue then .ok { term with text := term.text ++ [char] }
  else if term.isOperator then
    if (atoi [char]).isSome then
      .ok { term with isOperator := false, isValue := true,
                      text := term.text ++ [char] }
    else .ok { term with text := term.text ++ [char] }
  else if term.isIdentifier then .ok { term with text := term.text ++ [char] }
  else if (atoi [char]).isSome then
    .ok { term with isValue := true, text := term.text ++ [char] }
  else if (isOperatorText [char]).isSome then
    .ok { term with isOperator := true, text := term.text ++ [char] }
  else if isLatinChar char then
    .ok { term with isIdentifier := true, text := term.text ++ [char] }
  else .error .invalid

/-- The loop state of `convert2Postfix`. -/
structure LexState where
  expression : List Term := []
  stack : List Operator := []
  current : RawTerm := {}
  last : RawTerm := {}
  deriving Repr, DecidableEq

/-- One iteration of the scanner loop of `convert2Postfix`: close, then on a
closed term validate and grow (remembering it as `lastTerm` and resetting the
current term), then extend the current term with the same rune. -/
def lexStep (mem : Mem) (st : LexState) (char : Char) : Except Err LexState := do
  let cur := closeRaw st.current st.last char
  let st1 ←
    if cur.closed then do
      let term ← validate mem cur
      let (expr, stk) ← Grow st.expression st.stack term
      pure { expression := expr, stack := stk, current := {}, last := cur }
    else pure { st with current := cur }
  let cur2 ← extendRaw st1.current char
  pure { st1 with current := cur2 }

/-- Go `convert2Postfix`: empty input is the `empty expression` error;
otherwise run the scanner loop, validate and grow the final raw term, then pop
and append every operator left on the stack, in pop order. -/
def convert2Postfix (mem : Mem) (text : String) : Except Err (List Term) :=
  if text.length = 0 then .error .empty
  else do
    let st ← text.toList.foldlM (lexStep mem) {}
    let term ← validate mem st.current
    let (expr, stack) ← Grow st.expression st.stack term
    pure (expr ++ stack.map opTerm)

/-- Go `Value(math.Pow(float64(value1), float64(value2)))`, modelled where
`float64` arithmetic is exact and the result fits an `int`: `a ^ b` for
`0 ≤ b`, and for `b < 0` the real power truncated toward zero.  Rounding above
`2 ^ 53` and the implementation-specific out-of-range conversion are not
modelled; no theorem below depends on this function. -/
def mathPowTrunc (a b : Int) : Int :=
  if 0 ≤ b then a ^ b.toNat
  else if a = 1 then 1
  else if a = -1 then (if b % 2 = 0 then 1 else -1)
  else 0

/-- Go `Operator.Operate` of this variant: no error result at all.  `/` and
`%` with a zero right operand are a Go runtime panic (`none`), which kills the
process; a symbol outside the six arithmetic operators falls through the
`switch` and returns the zero value 0. -/
def Operate (operator : Operator) (value1 value2 : Value) : Option Value :=
  if operator = ['+'] then some (wrap (value1 + value2))
  else if operator = ['-'] then some (wrap (value1 - value2))
  else if operator = ['*'] then some (wrap (value1 * value2))
  else if operator = ['/'] then
    if value2 = 0 then none else some (wrap (value1.tdiv value2))
  else if operator = ['%'] then
    if value2 = 0 then none else some (value1.tmod value2)
  else if operator = ['^'] then some (mathPowTrunc value1 value2)
  else some 0

/-- The evaluator's value stack: a Go slice, `none` being the nil slice (the
code tests `stack == nil`), with the top at the head. -/
abbrev GoStack := Option (List Value)

/-- The elements of a slice (nil holds none). -/
def contentOf : GoStack → List Value
  | none => []
  | some l => l

/-- Go `Push`: `append` always yields a non-nil slice. -/
def vPush (s : GoStack) (v : Value) : GoStack := some (v :: contentOf s)

/-- Go `Pop`: an empty stack (nil or not) yields the nil slice and the zero
value; otherwise the rest is non-nil. -/
def vPop (s : GoStack) : GoStack × Value :=
  match contentOf s with
  | [] => (none, 0)
  | v :: rest => (some rest, v)

/-- Go `Peek`: the top element, or the zero value on an empty stack. -/
def vPeek (s : GoStack) : Value :=
  match contentOf s with
  | [] => 0
  | v :: _ => v

/-- One iteration of `Expression.Evaluate`: a literal is pushed; an operator
pops the right operand then the left operand, latches the `Invalid` error when
the second pop left the nil slice, applies `Operate` (left, right) and pushes
the result.  `none` is the division-by-zero panic. -/
def evalStep (st : GoStack × Option Err) (term : Term) :
    Option (GoStack × Option Err) :=
  if term.isOperator then
    match Operate term.operator (vPop (vPop st.1).1).2 (vPop st.1).2 with
    | some result =>
      some (vPush (vPop (vPop st.1).1).1 result,
        if (vPop (vPop st.1).1).1 = none then some Err.invalid else st.2)
    | none => none
  else some (vPush st.1 term.value, st.2)

/-- Go `Expression.Evaluate`: the empty expression is the `empty expression`
error; otherwise fold `evalStep` from the nil stack and return the top of the
final stack together with the latched error. -/
def Evaluate (expression : List Term) : Option (Value × Option Err) :=
  if expression = [] then some (0, some .empty)
  else do
    let st ← expression.foldlM evalStep (none, none)
    pure (vPeek st.1, st.2)

/-- Go `evaluateExpression`: convert then evaluate; a conversion error is
returned with the zero value. -/
def evaluateExpression (mem : Mem) (text : String) : Option (Value × Option Err) :=
  match convert2Postfix mem text with
  | .error e => some (0, some e)
  | .ok expression => Evaluate expression

/-- Go `strings.TrimSpace`, modelled on its ASCII-space range (the only
whitespace in the inputs considered here). -/
def trimChars (s : List Char) : List Char :=
  ((s.dropWhile (· = ' ')).reverse.dropWhile (· = ' ')).reverse

/-- The message constant `INVALID`. -/
def INVALIDmsg : String := "Invalid "

/-- The message constant `EMPTY`. -/
def EMPTYmsg : String := "empty expression"

/-- Go `printError`: the `Invalid ` message gets the statement kind appended;
the single string printed. -/
def printError (message statement : String) : List String :=
  if message = INVALIDmsg then [message ++ statement] else [message]

/-- Go `must`: every error is printed except the `empty expression` one, which
is a silent no-op. -/
def must (e : Err) (statement : String) : List String :=
  if e.message ≠ EMPTYmsg then printError e.message statement else []

/-- Go `handleExpression`: trim, evaluate, print the result on a nil error and
otherwise hand the error to `must`.  The returned list is the lines printed;
`none` is the division-by-zero panic. -/
def handleExpression (mem : Mem) (text : String) : Option (List String) :=
  match evaluateExpression mem (trimChars text.toList).asString with
  | none => none
  | some (v, none) => some [toString v]
  | some (_, some e) => some (must e "expression")

/-- Go `strings.SplitN(text, "=", 2)`: the part before the first `=` and the
part after it. -/
def splitAssign (text : List Char) : List Char × List Char :=
  (text.takeWhile (· ≠ '='), (text.dropWhile (· ≠ '=')).drop 1)

/-- Go `handleAssignment`: without a `=` the line goes to `handleExpression`;
otherwise the trimmed left side must be an identifier and the trimmed right
side is evaluated against the current memory, which is written only on a nil
error.  Returns the memory afterwards and the lines printed; `none` is the
division-by-zero panic. -/
def handleAssignment (mem : Mem) (text : String) : Option (Mem × List String) :=
  if !text.toList.contains '=' then
    (handleExpression mem text).map (fun out => (mem, out))
  else
    let assignee := trimChars (splitAssign text.toList).1
    let assigned := trimChars (splitAssign text.toList).2
    if !isIdentifierText assignee then some (mem, ["Invalid identifier"])
    else
      match evaluateExpression mem assigned.asString with
      | none => none
      | some (v, none) => some (memInsert mem assignee v, [])
      | some (_, some e) => some (mem, must e "assignment")

/-! Helper lemmas. -/

theorem evalStep_keeps_or_sets_invalid (st : GoStack × Option Err) (t : Term)
    (st1 : GoStack × Option Err) (h : evalStep st t = some st1) :
    st1.2 = st.2 ∨ st1.2 = some Err.invalid := by
  unfold evalStep at h
  by_cases hop : t.isOperator = true
  · rw [if_pos hop] at h
    cases hOp : Operate t.operator (vPop (vPop st.1).1).2 (vPop st.1).2 with
    | none => rw [hOp] at h; exact absurd h (by simp)
    | some r =>
      rw [hOp] at h
      simp only [Option.some.injEq] at h
      by_cases hnil : (vPop (vPop st.1).1).1 = none
      · right
        rw [← h]
        simp [hnil]
      · left
        rw [← h]
        simp [hnil]
  · rw [if_neg hop] at h
    simp only [Option.some.injEq] at h
    left
    rw [← h]

theorem foldlM_err_mono (ts : List Term) :
    ∀ (st st2 : GoStack × Option Err), st.2 = some Err.invalid →
      List.foldlM evalStep st ts = some st2 → st2.2 = some Err.invalid := by
  induction ts with
  | nil =>
    intro st st2 h hf
    simp only [List.foldlM_nil, pure, Option.some.injEq] at hf
    rw [← hf]
    exact h
  | cons t ts ih =>
    intro st st2 h hf
    rw [List.foldlM_cons] at hf
    cases hstep : evalStep st t with
    | none => rw [hstep] at hf; simp at hf
    | some st1 =>
      rw [hstep] at hf
      simp only [Option.bind_eq_bind, Option.some_bind] at hf
      refine ih st1 st2 ?_ hf
      rcases evalStep_keeps_or_sets_invalid st t st1 hstep with h1 | h1
      · rw [h1, h]
      · exact h1

theorem popUntilParen_no_paren (stack : List Operator)
    (h : ∀ op ∈ stack, op ≠ ['(']) : popUntilParen stack = none := by
  induction stack with
  | nil => rfl
  | cons top rest ih =>
    have htop : top ≠ ['('] := h top (List.mem_cons_self top rest)
    unfold popUntilParen
    rw [if_neg htop, ih (fun op hop => h op (List.mem_cons_of_mem top hop))]

theorem plusMinusAux_parity (s : List Char) :
    ∀ neg : Bool, (∀ c ∈ s, c = '+' ∨ c = '-') →
      plusMinusAux neg s = some (xor neg (decide (s.count '-' % 2 = 1))) := by
  induction s with
  | nil => intro neg _; simp [plusMinusAux]
  | cons c cs ih =>
    intro neg h
    rcases h c (List.mem_cons_self c cs) with rfl | rfl
    · have hcs : ∀ x ∈ cs, x = '+' ∨ x = '-' :=
        fun x hx => h x (List.mem_cons_of_mem '+' hx)
      have hstep : plusMinusAux neg ('+' :: cs) = plusMinusAux neg cs := by
        simp [plusMinusAux]
      have hcnt : ('+' :: cs).count '-' = cs.count '-' := by
        simp [List.count_cons]
      rw [hstep, hcnt, ih neg hcs]
    · have hcs : ∀ x ∈ cs, x = '+' ∨ x = '-' :=
        fun x hx => h x (List.mem_cons_of_mem '-' hx)
      have hstep : plusMinusAux neg ('-' :: cs) = plusMinusAux (!neg) cs := by
        simp [plusMinusAux]
      have hcnt : ('-' :: cs).count '-' = cs.count '-' + 1 := by
        simp [List.count_cons]
      rw [hstep, hcnt, ih (!neg) hcs]
      congr 1
      rcases Nat.even_or_odd (cs.count '-') with he | ho
      · have h0 : cs.count '-' % 2 = 0 := Nat.even_iff.mp he
        have h1 : (cs.count '-' + 1) % 2 = 1 := by omega
        simp [h0, h1]
      · have h0 : cs.count '-' % 2 = 1 := Nat.odd_iff.mp ho
        have h1 : (cs.count '-' + 1) % 2 = 0 := by omega
        simp [h0, h1]

/-! The claims. -/

/-- Claim C1: full evaluation of the spec's test inputs returns the stated
integers (19, 22 and 121), the precedence table being 1 for `+` and `-`, 2 for
`*`, `/` and `%`, and 3 for `^`. -/
theorem claim_C1 :
    evaluateExpression [] "3 + 8 * 2" = some (19, none) ∧
    evaluateExpression [] "(3 + 8) * 2" = some (22, none) ∧
    evaluateExpression [] "3 + 8 * ((4 + 3) * 2 + 1) - 6 / (2 + 1)" =
      some (121, none) ∧
    Precedence ['+'] = 1 ∧ Precedence ['-'] = 1 ∧ Precedence ['*'] = 2 ∧
    Precedence ['/'] = 2 ∧ Precedence ['%'] = 2 ∧ Precedence ['^'] = 3 := by
  decide

/-- Claim C2 (code bug): `Operate` has no error result at all, and `/` or `%`
with a zero right operand is an unguarded Go integer division: a runtime panic
(`none` here) that kills the process instead of the DivisionByZero failure the
spec requires.  Evaluating "5 / 0" panics. -/
theorem claim_C2 :
    evaluateExpression [] "5 / 0" = none ∧
    (∀ v : Value, Operate ['/'] v 0 = none ∧ Operate ['%'] v 0 = none) :=
  ⟨rfl, fun _ => ⟨rfl, rfl⟩⟩

/-- Claim C3 (code bug): an entirely untouched raw term validates, without
error, to the zero `Term`, which `Grow` appends to the expression as a literal
0 rather than treating it as nothing-to-add.  So the core evaluates "3 " (with
a trailing space) to 0, and "3  + 2" (two consecutive spaces) to 2 with no
error. -/
theorem claim_C3 :
    validate [] {} = .ok {} ∧
    Grow [] [] {} = .ok ([{}], []) ∧
    convert2Postfix [] "3 " = .ok [{ value := 3 }, {}] ∧
    evaluateExpression [] "3 " = some (0, none) ∧
    evaluateExpression [] "3  + 2" = some (2, none) :=
  ⟨rfl, rfl, rfl, by decide, by decide⟩

/-- Claim C4, counterexample: "1 2)" contains a `)` with no matching `(` yet
evaluates successfully to 0 with a nil error, and a stray leading `)` arriving
on an empty operator stack is pushed without any error rather than failing
with InvalidToken. -/
theorem claim_C4_counterexample :
    evaluateExpression [] "1 2)" = some (0, none) ∧
    Update [] [')'] = .ok ([], [[')']]) :=
  ⟨by decide, rfl⟩

/-- Claim C4, amended: a `)` arriving on an empty stack (or atop a `(`) is
pushed without error; only a `)` whose matching scan exhausts a nonempty,
`(`-free stack fails, with the Invalid error (e.g. "2+3)").  Unmatched-`)`
inputs are not guaranteed to fail overall: ")" fails later in the evaluator
with the Invalid error, but "1 2)" evaluates successfully to 0. -/
theorem claim_C4 :
    Update [] [')'] = .ok ([], [[')']]) ∧
    (∀ stack : List Operator, stack ≠ [] → (∀ op ∈ stack, op ≠ ['(']) →
      Update stack [')'] = .error .invalid) ∧
    convert2Postfix [] "2+3)" = .error .invalid ∧
    evaluateExpression [] ")" = some (0, some .invalid) ∧
    evaluateExpression [] "1 2)" = some (0, none) := by
  refine ⟨rfl, ?_, rfl, by decide, by decide⟩
  intro stack hne h
  have hpeek : oPeek stack ≠ ['('] := by
    cases stack with
    | nil => exact absurd rfl hne
    | cons top rest => exact h top (List.mem_cons_self top rest)
  have hcond : ¬(stack = [] ∨ ([')'] : Operator) = ['('] ∨ oPeek stack = ['(']) := by
    push_neg
    exact ⟨hne, by decide, hpeek⟩
  unfold Update
  rw [if_neg hcond, if_pos rfl, popUntilParen_no_paren stack h]

/-- Claim C4, witness for the amended statement: the matching scan for `)`
over the stack holding only `+` exhausts it and fails with Invalid. -/
theorem claim_C4_witness : Update [['+']] [')'] = .error .invalid :=
  claim_C4.2.1 [['+']] (by decide) (by decide)

/-- Claim C5: the evaluator pushes literals; on an operator it pops the right
operand first and the left second, applies left OP right ("7 / 2" gives 3 and
"7 % 2" gives 1), pushes the result, and the Invalid error is latched (and
survives to the returned error) whenever either pop hits an empty value
stack. -/
theorem claim_C5 :
    evaluateExpression [] "7 / 2" = some (3, none) ∧
    evaluateExpression [] "7 % 2" = some (1, none) ∧
    (∀ (st : GoStack × Option Err) (t : Term), t.isOperator = false →
      evalStep st t = some (vPush st.1 t.value, st.2)) ∧
    (∀ (op : Operator) (v1 v2 : Value) (rest : List Value) (e : Option Err)
        (r : Value), Operate op v2 v1 = some r →
      evalStep (some (v1 :: v2 :: rest), e) (opTerm op) =
        some (some (r :: rest), e)) ∧
    (∀ (op : Operator) (st st2 : GoStack × Option Err),
      (vPop st.1).1 = none ∨ (vPop (vPop st.1).1).1 = none →
      evalStep st (opTerm op) = some st2 → st2.2 = some Err.invalid) ∧
    (∀ (ts : List Term) (st st2 : GoStack × Option Err),
      st.2 = some Err.invalid → List.foldlM evalStep st ts = some st2 →
        st2.2 = some Err.invalid) := by
  refine ⟨by decide, by decide, ?_, ?_, ?_, foldlM_err_mono⟩
  · intro st t h
    simp [evalStep, h]
  · intro op v1 v2 rest e r h
    have hdef : evalStep (some (v1 :: v2 :: rest), e) (opTerm op) =
        match Operate op v2 v1 with
        | some result => some (some (result :: rest), e)
        | none => none := rfl
    rw [hdef, h]
  · intro op st st2 hpop h
    have hnil : (vPop (vPop st.1).1).1 = none := by
      rcases hpop with h1 | h1
      · rw [h1]; rfl
      · exact h1
    have hdef : evalStep st (opTerm op) =
        match Operate op (vPop (vPop st.1).1).2 (vPop st.1).2 with
        | some result =>
          some (vPush (vPop (vPop st.1).1).1 result,
            if (vPop (vPop st.1).1).1 = none then some Err.invalid else st.2)
        | none => none := rfl
    rw [hdef] at h
    cases hOp : Operate op (vPop (vPop st.1).1).2 (vPop st.1).2 with
    | none => rw [hOp] at h; exact absurd h (by simp)
    | some r =>
      rw [hOp] at h
      simp only [Option.some.injEq] at h
      rw [← h]
      simp [hnil]

/-- Claim C5, witness: "7 / 2" is an operator step popping 4 then 7 and
pushing 7 / 4 = 1; a pop on the nil stack latches Invalid; a latched Invalid
survives the remaining fold. -/
theorem claim_C5_witness :
    evalStep (some [(4 : Int), 7], none) (opTerm ['/']) =
      some (some [1], none) ∧
    ((some [(0 : Int)], some Err.invalid) : GoStack × Option Err).2 =
      some Err.invalid ∧
    ((some [(3 : Int)], some Err.invalid) : GoStack × Option Err).2 =
      some Err.invalid :=
  ⟨claim_C5.2.2.2.1 ['/'] 4 7 [] none 1 (by decide),
   claim_C5.2.2.2.2.1 ['+'] (none, none) (some [0], some Err.invalid)
     (Or.inl rfl) (by decide),
   claim_C5.2.2.2.2.2 [{ value := 3 }] (none, some Err.invalid)
     (some [3], some Err.invalid) rfl (by decide)⟩

/-- Claim C6: the empty input fails with the empty-expression error, a value
distinct from the Invalid one and never turned into it, and the top-level
caller prints nothing for it. -/
theorem claim_C6 (mem : Mem) :
    evaluateExpression mem "" = some (0, some Err.empty) ∧
    Evaluate [] = some (0, some Err.empty) ∧
    Err.empty ≠ Err.invalid ∧
    handleExpression mem "" = some [] ∧
    must Err.empty "expression" = [] :=
  ⟨rfl, rfl, by decide, rfl, rfl⟩

/-- Claim C7, counterexample: the sign characters of "5 - - 3" are separated
by spaces, so they are two separate operator terms, and the input evaluates to
the value -8 with the Invalid error latched (the claim states it yields 8);
likewise "5 + - - + - 3" prints "Invalid expression" instead of 2. -/
theorem claim_C7_counterexample :
    evaluateExpression [] "5 - - 3" = some (-8, some Err.invalid) ∧
    handleExpression [] "5 + - - + - 3" = some ["Invalid expression"] := by
  decide

/-- Claim C7, amended: every maximal contiguous run of `+`/`-` characters
collapses to a single operator, `-` exactly when the count of `-` is odd
("5 -- 3" and "5 - -3" give 8, "5 --- 3" gives 2); sign characters separated
by spaces are separate operator terms and such inputs fail. -/
theorem claim_C7 :
    (∀ s : List Char, (∀ c ∈ s, c = '+' ∨ c = '-') →
      isOperatorText s =
        some (if s.count '-' % 2 = 1 then ['-'] else ['+'])) ∧
    evaluateExpression [] "5 -- 3" = some (8, none) ∧
    evaluateExpression [] "5 --- 3" = some (2, none) ∧
    evaluateExpression [] "5 - -3" = some (8, none) := by
  refine ⟨?_, by decide, by decide, by decide⟩
  intro s h
  by_cases hmem : s ∈ operatorSymbols
  · simp only [operatorSymbols, List.mem_cons, List.not_mem_nil, or_false]
      at hmem
    rcases hmem with rfl | rfl | rfl | rfl | rfl | rfl | rfl | rfl
    · rcases h '*' (by decide) with h1 | h1 <;> exact absurd h1 (by decide)
    · rcases h '/' (by decide) with h1 | h1 <;> exact absurd h1 (by decide)
    · rcases h '^' (by decide) with h1 | h1 <;> exact absurd h1 (by decide)
    · rcases h '%' (by decide) with h1 | h1 <;> exact absurd h1 (by decide)
    · rcases h '(' (by decide) with h1 | h1 <;> exact absurd h1 (by decide)
    · rcases h ')' (by decide) with h1 | h1 <;> exact absurd h1 (by decide)
    · decide
    · decide
  · simp only [isOperatorText, if_neg hmem, plusMinus,
      plusMinusAux_parity s false h, Option.map_some, Bool.false_xor]
    by_cases hp : s.count '-' % 2 = 1
    · simp [hp]
    · simp [hp]

/-- Claim C7, witness for the amended statement: the contiguous run "+-+"
collapses to `-` (one minus sign, odd). -/
theorem claim_C7_witness :
    isOperatorText ['+', '-', '+'] =
      some (if (['+', '-', '+'] : List Char).count '-' % 2 = 1
        then ['-'] else ['+']) :=
  claim_C7.1 ['+', '-', '+'] (by decide)

/-- Claim C8: at end of input the converter appends every operator left on
the stack in pop order, and an unmatched `(` (one in "(2 + 3", two in "((1")
is drained without any error. -/
theorem claim_C8 :
    convert2Postfix [] "(2 + 3" =
      .ok [{ value := 2 }, { value := 3 }, opTerm ['+'], opTerm ['(']] ∧
    convert2Postfix [] "((1" =
      .ok [{ value := 1 }, opTerm ['('], opTerm ['(']] :=
  ⟨rfl, rfl⟩

/-- Claim C9: one REPL line either panics (division by zero), leaves the
memory unchanged, or — only in the assignment layer, and only after the core
evaluated the right-hand side successfully against the UNCHANGED memory —
writes that one binding.  The core functions themselves (`validate`,
`convert2Postfix`, `Evaluate`, `evaluateExpression`) take the memory purely as
a read-only argument. -/
theorem claim_C9 (mem : Mem) (text : String) :
    handleAssignment mem text = none ∨
    (∃ out, handleAssignment mem text = some (mem, out)) ∨
    (∃ v, evaluateExpression mem
        (trimChars (splitAssign text.toList).2).asString = some (v, none) ∧
      handleAssignment mem text =
        some (memInsert mem (trimChars (splitAssign text.toList).1) v, [])) := by
  unfold handleAssignment
  cases hc : text.toList.contains '=' with
  | false =>
    simp only [hc, Bool.not_false, if_true]
    cases handleExpression mem text with
    | none => exact Or.inl rfl
    | some out => exact Or.inr (Or.inl ⟨out, rfl⟩)
  | true =>
    simp only [hc, Bool.not_true, if_false]
    cases hid : isIdentifierText (trimChars (splitAssign text.toList).1) with
    | false =>
      simp only [hid, Bool.not_false, if_true]
      exact Or.inr (Or.inl ⟨["Invalid identifier"], rfl⟩)
    | true =>
      simp only [hid, Bool.not_true, if_false]
      cases hEval : evaluateExpression mem
          (trimChars (splitAssign text.toList).2).asString with
      | none => exact Or.inl rfl
      | some p =>
        rcases p with ⟨v, e⟩
        cases e with
        | none => exact Or.inr (Or.inr ⟨v, rfl, rfl⟩)
        | some err => exact Or.inr (Or.inl ⟨must err "assignment", rfl⟩)

/-- Claim C10: `Operate` on any symbol outside the six arithmetic operators —
`(` and `)` included — silently returns 0 with no error signal; `Update`
pushes a `)` onto the empty stack; the drain emits it into the postfix
expression, and the evaluator folds it as computing 0 ("1 2)" evaluates to 0
with a nil error). -/
theorem claim_C10 :
    (∀ v1 v2 : Value, Operate ['('] v1 v2 = some 0 ∧
      Operate [')'] v1 v2 = some 0) ∧
    (∀ (op : Operator) (v1 v2 : Value),
      op ∉ [['+'], ['-'], ['*'], ['/'], ['%'], ['^']] →
      Operate op v1 v2 = some 0) ∧
    Update [] [')'] = .ok ([], [[')']]) ∧
    convert2Postfix [] "1 2)" =
      .ok [{ value := 1 }, { value := 2 }, opTerm [')']] ∧
    evaluateExpression [] "1 2)" = some (0, none) := by
  refine ⟨fun v1 v2 => ⟨rfl, rfl⟩, ?_, rfl, rfl, by decide⟩
  intro op v1 v2 h
  simp only [List.mem_cons, List.not_mem_nil, or_false, not_or] at h
  obtain ⟨h1, h2, h3, h4, h5, h6⟩ := h
  simp [Operate, h1, h2, h3, h4, h5, h6]

/-- Claim C10, witness: `Operate` on `(` — a symbol outside the six
arithmetic operators — returns 0 with no error. -/
theorem claim_C10_witness : Operate ['('] 5 7 = some 0 :=
  claim_C10.2.1 ['('] 5 7 (by decide)

end SmartCalc
